import Mathlib

/-!
# Verification of `elastictools` (ncthuc/elastictools)

Shallow embedding of the parts of `elastictools/doctools.py` and
`elastictools/indextools.py` that the specification's claims are about:

* the JSON value universe manipulated by the library (Python dicts are
  embedded as association lists in insertion order, matching Python's
  dict semantics: assignment to an existing key keeps its position,
  assignment to a fresh key appends, `pop` removes the entry);
* `IndexTools.mapping_get_doctype`, `mapping_set_doctype`,
  `mapping_rename`, `get_mapping`, `get_settings`;
* `DocTools.render` (together with models of the external collaborators
  `json.dumps`, `json.loads` and jinja2 variable substitution that it
  delegates to), `make_search_body`, and the query-building and
  pagination logic of `dump`.

Fallible Python code (`raise ValueError`) is embedded with `Except String`.
-/

namespace Elastictools

/-- The universe of JSON-like Python values the library manipulates:
`None`, booleans, integers, strings, lists, and dicts (in insertion order). -/
inductive Json where
  | null : Json
  | bool : Bool → Json
  | int : Int → Json
  | str : String → Json
  | arr : List Json → Json
  | obj : List (String × Json) → Json
  deriving Inhabited

/-- A Python dict with string keys, in insertion order. -/
abbrev JObj := List (String × Json)

/-- The keys of a dict, in order (`dict.keys()`). -/
def keys (o : JObj) : List String := o.map Prod.fst

/-- Dict lookup (`d[k]`, `k in d`): the value at the first entry with key `k`. -/
def lookupKey (o : JObj) (k : String) : Option Json :=
  match o with
  | [] => none
  | (k', v) :: rest => if k' = k then some v else lookupKey rest k

/-- Python dict assignment `d[k] = v`: replaces the value in place if the key
exists (keeping its position), otherwise appends the new entry. -/
def setKey (o : JObj) (k : String) (v : Json) : JObj :=
  match o with
  | [] => [(k, v)]
  | (k', v') :: rest => if k' = k then (k, v) :: rest else (k', v') :: setKey rest k v

/-- Python `d.pop(k)` (the effect on the dict): removes the first entry with key `k`. -/
def popKey (o : JObj) (k : String) : JObj :=
  match o with
  | [] => []
  | (k', v') :: rest => if k' = k then rest else (k', v') :: popKey rest k

/-- Python truthiness on the embedded values: `None`, `False`, `0`, `""`,
`[]` and `{}` are falsy, everything else truthy. -/
def Json.truthy : Json → Bool
  | .null => false
  | .bool b => b
  | .int n => n != 0
  | .str s => !s.isEmpty
  | .arr xs => !xs.isEmpty
  | .obj kvs => !kvs.isEmpty

/-- Truthiness of an optional argument: absent (`None`) is falsy. -/
def opTruthy : Option Json → Bool
  | none => false
  | some j => j.truthy

@[simp] theorem keys_nil : keys [] = [] := rfl

@[simp] theorem keys_cons (k : String) (v : Json) (o : JObj) :
    keys ((k, v) :: o) = k :: keys o := rfl

@[simp] theorem keys_append (o₁ o₂ : JObj) :
    keys (o₁ ++ o₂) = keys o₁ ++ keys o₂ := by
  simp [keys]

theorem keys_setKey (o : JObj) (k : String) (v : Json) :
    keys (setKey o k v) = if k ∈ keys o then keys o else keys o ++ [k] := by
  induction o with
  | nil => simp [setKey]
  | cons hd tl ih =>
    obtain ⟨k', v'⟩ := hd
    by_cases h : k' = k
    · subst h; simp [setKey]
    · simp only [setKey, if_neg h, keys_cons, ih]
      have : (k ∈ k' :: keys tl) ↔ (k ∈ keys tl) := by
        simp [Ne.symm h]
      by_cases hm : k ∈ keys tl <;> simp [hm, this]

theorem keys_setKey_of_not_mem (o : JObj) (k : String) (v : Json)
    (h : k ∉ keys o) : keys (setKey o k v) = keys o ++ [k] := by
  rw [keys_setKey, if_neg h]

theorem keys_setKey_of_mem (o : JObj) (k : String) (v : Json)
    (h : k ∈ keys o) : keys (setKey o k v) = keys o := by
  rw [keys_setKey, if_pos h]

theorem keys_popKey (o : JObj) (k : String) :
    keys (popKey o k) = (keys o).erase k := by
  induction o with
  | nil => simp [popKey]
  | cons hd tl ih =>
    obtain ⟨k', v'⟩ := hd
    by_cases h : k' = k
    · subst h; simp [popKey, List.erase_cons_head]
    · simp [popKey, h, List.erase_cons_tail, ih, List.erase_cons]

@[simp] theorem lookupKey_setKey_self (o : JObj) (k : String) (v : Json) :
    lookupKey (setKey o k v) k = some v := by
  induction o with
  | nil => simp [setKey, lookupKey]
  | cons hd tl ih =>
    obtain ⟨k', v'⟩ := hd
    by_cases h : k' = k
    · subst h; simp [setKey, lookupKey]
    · simp [setKey, lookupKey, h, ih]

theorem lookupKey_setKey_ne (o : JObj) (k k' : String) (v : Json) (h : k ≠ k') :
    lookupKey (setKey o k v) k' = lookupKey o k' := by
  induction o with
  | nil => simp [setKey, lookupKey, h]
  | cons hd tl ih =>
    obtain ⟨k₀, v₀⟩ := hd
    by_cases h₀ : k₀ = k
    · subst h₀; simp [setKey, lookupKey, h]
    · simp only [setKey, if_neg h₀, lookupKey]
      by_cases h₁ : k₀ = k' <;> simp [h₁, ih]

theorem lookupKey_popKey_ne (o : JObj) (k k' : String) (h : k ≠ k') :
    lookupKey (popKey o k) k' = lookupKey o k' := by
  induction o with
  | nil => simp [popKey]
  | cons hd tl ih =>
    obtain ⟨k₀, v₀⟩ := hd
    by_cases h₀ : k₀ = k
    · subst h₀; simp [popKey, lookupKey, h]
    · simp only [popKey, if_neg h₀, lookupKey]
      by_cases h₁ : k₀ = k' <;> simp [h₁, ih]

theorem lookupKey_isSome_iff_mem (o : JObj) (k : String) :
    (lookupKey o k).isSome ↔ k ∈ keys o := by
  induction o with
  | nil => simp [lookupKey]
  | cons hd tl ih =>
    obtain ⟨k', v'⟩ := hd
    by_cases h : k' = k
    · subst h; simp [lookupKey]
    · simp [lookupKey, h, ih, Ne.symm h]

theorem lookupKey_eq_none_iff_not_mem (o : JObj) (k : String) :
    lookupKey o k = none ↔ k ∉ keys o := by
  rw [← lookupKey_isSome_iff_mem]
  cases lookupKey o k <;> simp

/-! ## IndexTools (elastictools/indextools.py) -/

namespace IndexTools

/-- `IndexTools.mapping_get_doctype` (indextools.py lines 97-108): if the
mapping does not have exactly one key, raise `ValueError`; otherwise return
the single key. -/
def mapping_get_doctype (mapping : JObj) : Except String String :=
  match mapping with
  | [(key, _)] => Except.ok key
  | _ => Except.error "There should be exactly one doc_type in a mapping."

/-- `IndexTools.mapping_set_doctype` (indextools.py lines 110-123): fetch the
sole doctype key (raising if not exactly one key); if it already equals
`doc_type` return the mapping unchanged, otherwise copy the value to the new
key and pop the old one. -/
def mapping_set_doctype (mapping : JObj) (doc_type : String) : Except String JObj :=
  match mapping_get_doctype mapping with
  | Except.error e => Except.error e
  | Except.ok key =>
    if key = doc_type then Except.ok mapping
    else
      match lookupKey mapping key with
      | some v => Except.ok (popKey (setKey mapping doc_type v) key)
      | none => Except.error "KeyError"

/-- `IndexTools.mapping_rename` (indextools.py lines 145-162): require exactly
one doctype key; if `property_name` is absent from the doctype's `properties`
dict, return the mapping unchanged; otherwise assign the property's value to
`new_name` and pop `property_name` (in that order, as the source does). -/
def mapping_rename (mapping : JObj) (property_name new_name : String) :
    Except String JObj :=
  match mapping with
  | [(key, tbody)] =>
    match tbody with
    | Json.obj fields =>
      match lookupKey fields "properties" with
      | some (Json.obj props) =>
        match lookupKey props property_name with
        | none => Except.ok [(key, Json.obj fields)]
        | some v =>
          let props := popKey (setKey props new_name v) property_name
          Except.ok [(key, Json.obj (setKey fields "properties" (Json.obj props)))]
      | _ => Except.error "KeyError: properties"
    | _ => Except.error "TypeError: doctype body is not a dict"
  | _ => Except.error "There should be exactly one doc_type in a mapping."

/-- The property-name set of a single-doctype mapping: the keys of the
doctype's `properties` dict (`none` when the shape is not as expected). -/
def mapping_fields (mapping : JObj) : Option (List String) :=
  match mapping with
  | [(_, Json.obj fields)] =>
    match lookupKey fields "properties" with
    | some (Json.obj props) => some (keys props)
    | _ => none
  | _ => none

/-- One remote index as the server stores it: a mapping and a settings dict. -/
structure ESIndex where
  mapping : JObj
  settings : JObj

/-- The remote cluster state seen by `IndexTools`: the existing indices by name. -/
structure ESState where
  indices : List (String × ESIndex)

/-- `IndexTools.exists` (indextools.py lines 40-47), for a single index name:
delegates to the client's `indices.exists`, true iff the index exists. -/
def existsIndex (st : ESState) (index_name : String) : Bool :=
  (st.indices.find? (fun p => p.1 = index_name)).isSome

/-- Client lookup of an index by name. -/
def findIndex (st : ESState) (index_name : String) : Option ESIndex :=
  (st.indices.find? (fun p => p.1 = index_name)).map Prod.snd

/-- `IndexTools.get_mapping` (indextools.py lines 71-80): if the index does not
exist, `return None` (no exception and no mapping request); otherwise return the
index's mapping from the client's `indices.get_mapping` response. The value
`Except.ok none` embeds Python's normal `None` return. -/
def get_mapping (st : ESState) (index_name : String) : Except String (Option JObj) :=
  if ¬ existsIndex st index_name then Except.ok none
  else
    match findIndex st index_name with
    | some idx => Except.ok (some idx.mapping)
    | none => Except.error "KeyError"

/-- `IndexTools.get_settings` (indextools.py lines 164-173): if the index does
not exist, `return None`; otherwise return the index's settings from the
client's `indices.get_settings` response. -/
def get_settings (st : ESState) (index_name : String) : Except String (Option JObj) :=
  if ¬ existsIndex st index_name then Except.ok none
  else
    match findIndex st index_name with
    | some idx => Except.ok (some idx.settings)
    | none => Except.error "KeyError"

end IndexTools

/-! ## DocTools (elastictools/doctools.py)

`DocTools.render` delegates to two external collaborators: the `json`
module (`json.dumps` / `json.loads`, default separators) and jinja2
variable substitution.  They are modelled below.  The recursions are
driven by an explicit fuel argument so that every definition is
structurally recursive and evaluates inside the kernel; the fuel chosen
at the entry points always suffices, so the out-of-fuel branches are
never reached on actual inputs. -/

namespace DocTools

mutual

/-- Model of `json.dumps` with the default separators: dicts and lists are
rendered with a comma-space between items and a colon-space after keys,
strings are quoted. String escaping is not modelled (the library's templates
do not rely on it). -/
def json_dumps : Json → String
  | Json.null => "null"
  | Json.bool true => "true"
  | Json.bool false => "false"
  | Json.int n => toString n
  | Json.str s => "\"" ++ s ++ "\""
  | Json.arr xs => "[" ++ json_dumps_items xs ++ "]"
  | Json.obj kvs => "\x7b" ++ json_dumps_members kvs ++ "\x7d"
  termination_by structural j => j

/-- Comma-separated list items of the `json.dumps` model. -/
def json_dumps_items : List Json → String
  | [] => ""
  | [x] => json_dumps x
  | x :: xs => json_dumps x ++ ", " ++ json_dumps_items xs
  termination_by structural l => l

/-- Comma-separated dict members of the `json.dumps` model. -/
def json_dumps_members : List (String × Json) → String
  | [] => ""
  | [(k, v)] => "\"" ++ k ++ "\": " ++ json_dumps v
  | (k, v) :: kvs => "\"" ++ k ++ "\": " ++ json_dumps v ++ ", " ++ json_dumps_members kvs
  termination_by structural l => l

end

mutual

/-- Model of Python's `repr` on the embedded values, as jinja2 renders
lists and dicts. -/
def pyRepr : Json → String
  | Json.null => "None"
  | Json.bool true => "True"
  | Json.bool false => "False"
  | Json.int n => toString n
  | Json.str s => "'" ++ s ++ "'"
  | Json.arr xs => "[" ++ pyRepr_items xs ++ "]"
  | Json.obj kvs => "\x7b" ++ pyRepr_members kvs ++ "\x7d"
  termination_by structural j => j

/-- Comma-separated list items of the `repr` model. -/
def pyRepr_items : List Json → String
  | [] => ""
  | [x] => pyRepr x
  | x :: xs => pyRepr x ++ ", " ++ pyRepr_items xs
  termination_by structural l => l

/-- Comma-separated dict members of the `repr` model. -/
def pyRepr_members : List (String × Json) → String
  | [] => ""
  | [(k, v)] => "'" ++ k ++ "': " ++ pyRepr v
  | (k, v) :: kvs => "'" ++ k ++ "': " ++ pyRepr v ++ ", " ++ pyRepr_members kvs
  termination_by structural l => l

end

/-- Model of Python's `str()` as jinja2 stringifies a substituted value:
a string renders as its own characters (no quotes), everything else as its
`repr`. -/
def pyStr (j : Json) : String :=
  match j with
  | Json.str s => s
  | _ => pyRepr j

/-- Parameter lookup for the jinja2 model. -/
def lookupParam (params : List (String × Json)) (name : String) : Option Json :=
  (params.find? (fun p => p.1 = name)).map Prod.snd

/-- Strips leading and trailing spaces of a jinja2 expression text. -/
def trimSpaces (cs : List Char) : List Char :=
  ((cs.dropWhile (fun c => c = ' ')).reverse.dropWhile (fun c => c = ' ')).reverse

/-- Reads the variable text of a jinja2 expression up to the closing
double brace: returns the chars before it and the remainder after it. -/
def readVar : List Char → Option (List Char × List Char)
  | '\x7d' :: '\x7d' :: rest => some ([], rest)
  | c :: rest => (readVar rest).map (fun p => (c :: p.1, p.2))
  | [] => none

/-- Model of jinja2 variable substitution (fuel-indexed): each occurrence of
a double-braced expression is replaced by the `str()` of the named parameter
(an undefined name renders as the empty string, jinja2's default); all other
characters are copied. -/
def jinja_sub (params : List (String × Json)) : Nat → List Char → List Char
  | 0, _ => []
  | fuel+1, cs =>
    match cs with
    | [] => []
    | '\x7b' :: '\x7b' :: rest =>
      match readVar rest with
      | some (var, rem) =>
        let value :=
          match lookupParam params (String.mk (trimSpaces var)) with
          | some j => pyStr j
          | none => ""
        value.toList ++ jinja_sub params fuel rem
      | none => '\x7b' :: '\x7b' :: jinja_sub params fuel rest
    | c :: rest => c :: jinja_sub params fuel rest

/-- Model of `jinja2.Template(s).render(params)` for variable substitution. -/
def jinja_render (s : String) (params : List (String × Json)) : String :=
  String.mk (jinja_sub params (s.toList.length + 1) s.toList)

/-- Skips JSON whitespace. -/
def skipWs : List Char → List Char
  | c :: rest =>
    if c = ' ' ∨ c = '\n' ∨ c = '\t' ∨ c = '\r' then skipWs rest else c :: rest
  | [] => []

/-- Reads a JSON string body up to the closing quote (escapes are not
modelled; the library's bodies do not rely on them). -/
def readStr : List Char → Option (List Char × List Char)
  | '"' :: rest => some ([], rest)
  | c :: rest => (readStr rest).map (fun p => (c :: p.1, p.2))
  | [] => none

/-- Reads a run of decimal digits. -/
def readDigits : List Char → List Char × List Char
  | c :: rest =>
    if c.isDigit then
      let p := readDigits rest
      (c :: p.1, p.2)
    else ([], c :: rest)
  | [] => ([], [])

/-- Decimal value of a digit string. -/
def digitsToNat : List Char → Nat
  | [] => 0
  | ds => ds.foldl (fun acc c => acc * 10 + (c.toNat - '0'.toNat)) 0

/-- Reads a JSON integer (floats are not modelled; the claims only involve
integer parameters). -/
def readInt : List Char → Option (Int × List Char)
  | '-' :: rest =>
    match readDigits rest with
    | ([], _) => none
    | (ds, rem) => some (-(digitsToNat ds : Int), rem)
  | cs =>
    match readDigits cs with
    | ([], _) => none
    | (ds, rem) => some ((digitsToNat ds : Int), rem)

mutual

/-- Model of `json.loads`, value parser (fuel-indexed): parses one JSON
value and returns it with the unconsumed remainder. -/
def parseVal : Nat → List Char → Option (Json × List Char)
  | 0, _ => none
  | fuel+1, cs =>
    match skipWs cs with
    | 'n' :: 'u' :: 'l' :: 'l' :: rest => some (Json.null, rest)
    | 't' :: 'r' :: 'u' :: 'e' :: rest => some (Json.bool true, rest)
    | 'f' :: 'a' :: 'l' :: 's' :: 'e' :: rest => some (Json.bool false, rest)
    | '"' :: rest =>
      match readStr rest with
      | some (s, rem) => some (Json.str (String.mk s), rem)
      | none => none
    | '[' :: rest =>
      match skipWs rest with
      | ']' :: rem => some (Json.arr [], rem)
      | cs1 => parseArrItems fuel cs1 []
    | '\x7b' :: rest =>
      match skipWs rest with
      | '\x7d' :: rem => some (Json.obj [], rem)
      | cs1 => parseObjItems fuel cs1 []
    | cs1 => (readInt cs1).map (fun p => (Json.int p.1, p.2))
  termination_by structural fuel => fuel

/-- Array items of the `json.loads` model: value, then a comma and more
items or the closing bracket. -/
def parseArrItems : Nat → List Char → List Json → Option (Json × List Char)
  | 0, _, _ => none
  | fuel+1, cs, acc =>
    match parseVal fuel cs with
    | some (v, rem) =>
      match skipWs rem with
      | ',' :: rem2 => parseArrItems fuel rem2 (acc ++ [v])
      | ']' :: rem2 => some (Json.arr (acc ++ [v]), rem2)
      | _ => none
    | none => none
  termination_by structural fuel => fuel

/-- Object members of the `json.loads` model: quoted key, colon, value,
then a comma and more members or the closing brace. -/
def parseObjItems : Nat → List Char → JObj → Option (Json × List Char)
  | 0, _, _ => none
  | fuel+1, cs, acc =>
    match skipWs cs with
    | '"' :: rest =>
      match readStr rest with
      | some (kcs, rem) =>
        match skipWs rem with
        | ':' :: rem2 =>
          match parseVal fuel rem2 with
          | some (v, rem3) =>
            match skipWs rem3 with
            | ',' :: rem4 => parseObjItems fuel rem4 (acc ++ [(String.mk kcs, v)])
            | '\x7d' :: rem4 => some (Json.obj (acc ++ [(String.mk kcs, v)]), rem4)
            | _ => none
          | none => none
        | _ => none
      | none => none
    | _ => none
  termination_by structural fuel => fuel

end

/-- Model of `json.loads`: parse one value, requiring only whitespace after
it; `none` embeds a raised `JSONDecodeError`. The fuel bounds the recursion
depth of the parser, which gains at least one consumed character every two
levels. -/
def json_loads (s : String) : Option Json :=
  match parseVal (2 * s.toList.length + 2) s.toList with
  | some (v, rem) => if skipWs rem = [] then some v else none
  | none => none

/-- `DocTools.render` (doctools.py lines 51-66): a string template is
substituted directly (the rendered string is returned); any other body is
serialized with `json.dumps`, substituted, and parsed back with
`json.loads`. -/
def render (obj : Json) (params : List (String × Json)) : Option Json :=
  match obj with
  | Json.str s => some (Json.str (jinja_render s params))
  | _ => json_loads (jinja_render (json_dumps obj) params)

/-- The default query: match everything. -/
def matchAll : Json := Json.obj [("match_all", Json.obj [])]

/-- The keyword arguments of `DocTools.make_search_body` (doctools.py lines
148-151), each defaulting to `None`.  `_source` is a dict argument,
`body` a dict, `params` the template parameters; the rest are arbitrary
values. -/
structure SearchArgs where
  body : Option JObj := none
  params : Option (List (String × Json)) := none
  from_ : Option Json := none
  size : Option Json := none
  query : Option Json := none
  _source : Option JObj := none
  highlight : Option Json := none
  aggs : Option Json := none
  sort : Option Json := none
  script_fields : Option Json := none
  post_filter : Option Json := none
  rescore : Option Json := none
  min_score : Option Json := none
  collapse : Option Json := none
  source_includes : Option Json := none
  source_excludes : Option Json := none

/-- `if not body: body = dict()` (doctools.py lines 172-173): an absent or
falsy (empty) body is replaced by a fresh empty dict. -/
def init_body : Option JObj → JObj
  | some b => if b.isEmpty then [] else b
  | none => []

/-- One guarded clause assignment `if x: body[k] = x` of `make_search_body`. -/
def addClause (body : JObj) (cond : Bool) (k : String) (v : Json) : JObj :=
  if cond then setKey body k v else body

/-- The `_source` dict built by `make_search_body` when `source_includes` or
`source_excludes` is truthy (doctools.py lines 180-187): start from the
given `_source` (a fresh dict when that is absent or falsy) and assign the
truthy `includes` and `excludes` entries. -/
def source_clause (s : Option JObj) (inc exc : Option Json) : JObj :=
  let s0 : JObj := match s with
    | some s => if s.isEmpty then [] else s
    | none => []
  let s1 := match inc with
    | some v => if v.truthy then setKey s0 "includes" v else s0
    | none => s0
  match exc with
  | some v => if v.truthy then setKey s1 "excludes" v else s1
  | none => s1

/-- The condition `source_excludes or source_includes` guarding the combined
`_source` assignment (doctools.py line 180). -/
def inc_exc_present (a : SearchArgs) : Bool :=
  opTruthy a.source_excludes || opTruthy a.source_includes

/-- The two `_source` assignments of `make_search_body` (doctools.py lines
178-187): `body[_source]` is set from a truthy `_source` argument, and set
again from the combined include/exclude dict when either of those is truthy. -/
def add_source_clauses (a : SearchArgs) (body : JObj) : JObj :=
  let body := match a._source with
    | some s => if s.isEmpty then body else setKey body "_source" (Json.obj s)
    | none => body
  if inc_exc_present a then
    setKey body "_source" (Json.obj (source_clause a._source a.source_includes a.source_excludes))
  else body

/-- The optional clause assignments of `make_search_body` (doctools.py lines
178-208), in source order: `_source`, `highlight`, `aggs`, `from`, `size`,
`sort`, `script_fields`, `post_filter`, `rescore`, `min_score`, `collapse`,
each included only when its argument is truthy. -/
def add_optional_clauses (a : SearchArgs) (body : JObj) : JObj :=
  let body := add_source_clauses a body
  let body := addClause body (opTruthy a.highlight) "highlight" (a.highlight.getD Json.null)
  let body := addClause body (opTruthy a.aggs) "aggs" (a.aggs.getD Json.null)
  let body := addClause body (opTruthy a.from_) "from" (a.from_.getD Json.null)
  let body := addClause body (opTruthy a.size) "size" (a.size.getD Json.null)
  let body := addClause body (opTruthy a.sort) "sort" (a.sort.getD Json.null)
  let body := addClause body (opTruthy a.script_fields) "script_fields" (a.script_fields.getD Json.null)
  let body := addClause body (opTruthy a.post_filter) "post_filter" (a.post_filter.getD Json.null)
  let body := addClause body (opTruthy a.rescore) "rescore" (a.rescore.getD Json.null)
  let body := addClause body (opTruthy a.min_score) "min_score" (a.min_score.getD Json.null)
  addClause body (opTruthy a.collapse) "collapse" (a.collapse.getD Json.null)

/-- `DocTools.make_search_body`, dict-building part (doctools.py lines
172-208): default the body to an empty dict, default the `query` argument to
match-all when it `is None`, assign `body[query]`, then the optional clauses.
Because Python mutates the passed-in body dict in place, this value is also
the state of the caller's dict after the call (when the caller passed a
truthy one). -/
def make_search_body_dict (a : SearchArgs) : JObj :=
  let body := init_body a.body
  let query := a.query.getD matchAll
  add_optional_clauses a (setKey body "query" query)

/-- `DocTools.make_search_body` (doctools.py lines 148-213): build the dict,
then render it when truthy params were supplied (`none` embeds a raised
parse error during rendering). -/
def make_search_body (a : SearchArgs) : Option Json :=
  let body := make_search_body_dict a
  match a.params with
  | some ps => if ps.isEmpty then some (Json.obj body) else render (Json.obj body) ps
  | none => some (Json.obj body)

/-- The state of the caller's `body` dict after `make_search_body` returns
(`none` when no dict was passed): Python replaces a falsy body by a fresh
dict, leaving the caller's dict untouched, and otherwise mutates the caller's
dict in place through every clause assignment. -/
def make_search_body_caller_dict (a : SearchArgs) : Option JObj :=
  match a.body with
  | none => none
  | some b => some (if b.isEmpty then b else make_search_body_dict a)

/-! ### `DocTools.dump` -/

/-- The query/sort construction of `DocTools.dump` (doctools.py lines
258-282): with a truthy `datetime_field`, sort ascending by that field and
wrap the query (or match-all when the query argument is falsy) in a bool
`must` with a `filter` holding a range clause — whose field name is the
string literal `request_time` in the source, not the `datetime_field`
argument — with bounds `gte` `datetime_from`, `lt` `datetime_to` and format
`basic_date_time_no_millis`.  Returns the query and sort passed on to
`make_search_body`. -/
def dump_query_sort (query : Option Json) (datetime_field : Option String)
    (datetime_from datetime_to : Json) : Option Json × Option Json :=
  match datetime_field with
  | some f =>
    if f.isEmpty then (query, none)
    else
      (some (Json.obj [("bool", Json.obj [
          ("must", Json.arr [match query with
            | some q => if q.truthy then q else matchAll
            | none => matchAll]),
          ("filter", Json.arr [Json.obj [("range", Json.obj [
            ("request_time", Json.obj [
              ("gte", datetime_from),
              ("lt", datetime_to),
              ("format", Json.str "basic_date_time_no_millis")])])]])])]),
       some (Json.arr [Json.obj [(f, Json.obj [("order", Json.str "asc")])]]))
  | none => (query, none)

/-- The hits a search with the given `from`/`size` pagination returns, for a
server holding `docs` matching the dump's query in sort order: the
requested slice. -/
def esSearchHits (docs : List Json) (from_ size : Nat) : List Json :=
  (docs.drop from_).take size

/-- The pagination loop of `DocTools.dump` (doctools.py lines 286-302,
in-memory accumulation): starting at offset `from_`, issue a paged search of
`psize` documents and advance the offset by `psize` while the offset is
below `total`.  Returns the accumulated documents and the number of paged
search requests issued.  (For `psize = 0` the Python loop would never
terminate; the claim assumes `page_size ≥ 1` and that branch is never
reached there.) -/
def dump_loop (docs : List Json) (total psize from_ : Nat) : List Json × Nat :=
  if from_ < total then
    if 0 < psize then
      let r := esSearchHits docs from_ psize
      let p := dump_loop docs total psize (from_ + psize)
      (r ++ p.1, p.2 + 1)
    else ([], 0)
  else ([], 0)
  termination_by total - from_
  decreasing_by omega

/-- `DocTools.dump`, result shape (doctools.py lines 283-308): the first
search reports the total hit count, the loop pages through the documents
from offset 0, and the call returns the accumulated list (in-memory mode) or
the reported total (file mode), along with the number of paged search
requests. -/
def dump (docs : List Json) (page_size : Nat) (to_file : Bool) :
    (Nat ⊕ List Json) × Nat :=
  let total := docs.length
  let p := dump_loop docs total page_size 0
  (if to_file then Sum.inl total else Sum.inr p.1, p.2)

end DocTools

/-! ## Claim theorems -/

open IndexTools DocTools

/-- **C2, counterexample.** The claim says `get_mapping` and `get_settings`
fail with a not-found condition on a nonexistent index; on the empty cluster
and index name `idx` both instead return normally, with Python's `None`
(`Except.ok none`), not an error. -/
theorem c2_counterexample :
    get_mapping ⟨[]⟩ "idx" = Except.ok none
    ∧ get_settings ⟨[]⟩ "idx" = Except.ok none := by
  exact ⟨rfl, rfl⟩

/-- **C2, amended.** For every cluster state and every index name that does
not exist, `get_mapping` and `get_settings` return `None` normally (no
exception is raised, and no mapping/settings request reaches the client). -/
theorem c2_get_mapping_settings_absent (st : ESState) (name : String)
    (h : existsIndex st name = false) :
    get_mapping st name = Except.ok none
    ∧ get_settings st name = Except.ok none := by
  unfold get_mapping get_settings
  simp [h]

/-- Witness for C2's amended theorem at the empty cluster and name `idx`. -/
theorem c2_get_mapping_settings_absent_witness :
    get_mapping ⟨[]⟩ "idx2" = Except.ok none
    ∧ get_settings ⟨[]⟩ "idx2" = Except.ok none :=
  c2_get_mapping_settings_absent ⟨[]⟩ "idx2" rfl

/-- **C3, counterexample.** `render` on the structured template with body
`field ↦ "(double-braced x)"` and params `x ↦ 5` yields the *string* `"5"`
for `field` (the serialized template keeps the quotes around the
placeholder), not the integer `5` the claim states. -/
theorem c3_counterexample :
    render (Json.obj [("field", Json.str "\x7b\x7bx\x7d\x7d")]) [("x", Json.int 5)]
      = some (Json.obj [("field", Json.str "5")])
    ∧ render (Json.obj [("field", Json.str "\x7b\x7bx\x7d\x7d")]) [("x", Json.int 5)]
      ≠ some (Json.obj [("field", Json.int 5)]) := by
  have h : render (Json.obj [("field", Json.str "\x7b\x7bx\x7d\x7d")]) [("x", Json.int 5)]
      = some (Json.obj [("field", Json.str "5")]) := by rfl
  refine ⟨h, ?_⟩
  rw [h]
  simp

/-- **C3, amended.** `render` applied to the structured template
`field ↦ "(double-braced x)"` with params `x ↦ 5` returns exactly
`field ↦ "5"` (the string `"5"`): the body is serialized to text, the
placeholder substituted, and the result parsed back. -/
theorem c3_render_structured_template :
    render (Json.obj [("field", Json.str "\x7b\x7bx\x7d\x7d")]) [("x", Json.int 5)]
      = some (Json.obj [("field", Json.str "5")]) := by
  rfl

/-- **C4.** `mapping_get_doctype` returns the key of a one-key mapping,
raises a `ValueError` for every mapping whose key count differs from one,
and returns a key only for one-key mappings (it raises in exactly the
zero-or-many-keys cases). -/
theorem c4_mapping_get_doctype (m : JObj) :
    (∀ k v, m = [(k, v)] → mapping_get_doctype m = Except.ok k)
    ∧ ((keys m).length ≠ 1 → ∃ e, mapping_get_doctype m = Except.error e)
    ∧ (∀ k, mapping_get_doctype m = Except.ok k → ∃ v, m = [(k, v)]) := by
  refine ⟨?_, ?_, ?_⟩
  · rintro k v rfl
    rfl
  · intro h
    match m, h with
    | [], _ => exact ⟨_, rfl⟩
    | (k0, v0) :: (k1, v1) :: rest, _ => exact ⟨_, rfl⟩
    | [(k0, v0)], h => simp [keys] at h
  · intro k hk
    match m, hk with
    | [(k0, v0)], hk =>
      simp only [mapping_get_doctype, Except.ok.injEq] at hk
      exact ⟨v0, by rw [hk]⟩
    | [], hk => simp [mapping_get_doctype] at hk
    | (k0, v0) :: (k1, v1) :: rest, hk => simp [mapping_get_doctype] at hk

/-- Witness for C4 at the one-key mapping `doc ↦ (empty dict)` and at the
empty mapping. -/
theorem c4_mapping_get_doctype_witness :
    mapping_get_doctype [("doc", Json.obj [])] = Except.ok "doc"
    ∧ ∃ e, mapping_get_doctype ([] : JObj) = Except.error e := by
  refine ⟨(c4_mapping_get_doctype [("doc", Json.obj [])]).1 "doc" (Json.obj []) rfl, ?_⟩
  exact (c4_mapping_get_doctype ([] : JObj)).2.1 (by decide)

/-- **C10.** On a mapping with the single doctype key `k`,
`mapping_set_doctype` to `t` succeeds and preserves the exactly-one-key
invariant: the result's key list is exactly `[t]`, and when `t` equals the
current key the mapping is returned unchanged (the key is not deleted). -/
theorem c10_mapping_set_doctype (m : JObj) (k t : String) (v : Json)
    (h : m = [(k, v)]) :
    mapping_set_doctype m t = Except.ok (if t = k then m else [(t, v)])
    ∧ keys (if t = k then m else [(t, v)]) = [t] := by
  subst h
  by_cases hkt : k = t
  · subst hkt
    simp [mapping_set_doctype, mapping_get_doctype, keys]
  · rw [if_neg (fun h => hkt h.symm)]
    constructor
    · simp [mapping_set_doctype, mapping_get_doctype, hkt, lookupKey, setKey, popKey]
    · rfl

/-- Witness for C10: renaming the doctype `doc` to `newdoc` and to `doc`
itself, on the concrete one-key mapping. -/
theorem c10_mapping_set_doctype_witness :
    (mapping_set_doctype [("doc", Json.obj [])] "newdoc" = Except.ok [("newdoc", Json.obj [])]
      ∧ keys [("newdoc", Json.obj [])] = ["newdoc"])
    ∧ (mapping_set_doctype [("doc", Json.obj [])] "doc" = Except.ok [("doc", Json.obj [])]
      ∧ keys [("doc", Json.obj [])] = ["doc"]) := by
  constructor
  · have h := c10_mapping_set_doctype [("doc", Json.obj [])] "doc" "newdoc" (Json.obj []) rfl
    simpa using h
  · have h := c10_mapping_set_doctype [("doc", Json.obj [])] "doc" "doc" (Json.obj []) rfl
    simpa using h

/-- Assigning a key the value it already has leaves the dict unchanged. -/
theorem setKey_of_lookup_eq (o : JObj) (k : String) (v : Json)
    (h : lookupKey o k = some v) : setKey o k v = o := by
  induction o with
  | nil => simp [lookupKey] at h
  | cons hd tl ih =>
    obtain ⟨k₀, v₀⟩ := hd
    by_cases h₀ : k₀ = k
    · subst h₀
      have h' : v₀ = v := by simpa [lookupKey] using h
      subst h'
      simp [setKey]
    · simp only [lookupKey, if_neg h₀] at h
      simp [setKey, h₀, ih h]

/-- **C8.** On a mapping with a single doctype key whose `properties` dict
contains the field `a`, `mapping_rename` of `a` to `a` itself deletes the
field: the assignment rewrites `a` with its own value and the `pop` then
removes it, so the resulting property key set is the original with `a`
erased, and `a` is gone entirely. -/
theorem c8_mapping_rename_self (key a : String) (fields props : JObj) (v : Json)
    (hf : lookupKey fields "properties" = some (Json.obj props))
    (hp : lookupKey props a = some v)
    (hnd : (keys props).Nodup) :
    mapping_rename [(key, Json.obj fields)] a a
      = Except.ok [(key, Json.obj (setKey fields "properties"
          (Json.obj (popKey props a))))]
    ∧ keys (popKey props a) = (keys props).erase a
    ∧ a ∉ keys (popKey props a)
    ∧ a ∈ keys props := by
  have ha : a ∈ keys props := by
    rw [← lookupKey_isSome_iff_mem, hp]
    rfl
  refine ⟨?_, ?_, ?_, ha⟩
  · simp only [mapping_rename, hf, hp]
    rw [setKey_of_lookup_eq props a v hp]
  · rw [keys_popKey]
  · rw [keys_popKey]
    intro hmem
    exact absurd rfl (hnd.mem_erase_iff.mp hmem).1

/-- Witness for C8 on the one-field mapping `doc ↦ properties ↦ a ↦ text`. -/
theorem c8_mapping_rename_self_witness :
    mapping_rename [("doc", Json.obj [("properties", Json.obj [("a", Json.str "text")])])] "a" "a"
      = Except.ok [("doc", Json.obj (setKey [("properties", Json.obj [("a", Json.str "text")])]
          "properties" (Json.obj (popKey [("a", Json.str "text")] "a"))))]
    ∧ keys (popKey [("a", Json.str "text")] "a") = (keys [("a", Json.str "text")]).erase "a"
    ∧ "a" ∉ keys (popKey [("a", Json.str "text")] "a")
    ∧ "a" ∈ keys [("a", Json.str "text")] :=
  c8_mapping_rename_self "doc" "a" [("properties", Json.obj [("a", Json.str "text")])]
    [("a", Json.str "text")] (Json.str "text") rfl rfl (by decide)

/-- **C1.** At the failing input `datetime_field = "created_at"` (with no
query), the search body `dump` builds sorts ascending by `created_at` and
wraps match-all in a bool filter whose range clause is over the *hardcoded*
field `request_time` — not over the field named by `datetime_field`, as the
claim (and the surrounding code's evident intent: the sort does use the
parameter) requires. -/
theorem c1_dump_range_field_hardcoded :
    dump_query_sort none (some "created_at")
        (Json.str "20181101T000000+07:00") (Json.str "20181107T235959+07:00")
      = (some (Json.obj [("bool", Json.obj [
          ("must", Json.arr [matchAll]),
          ("filter", Json.arr [Json.obj [("range", Json.obj [
            ("request_time", Json.obj [
              ("gte", Json.str "20181101T000000+07:00"),
              ("lt", Json.str "20181107T235959+07:00"),
              ("format", Json.str "basic_date_time_no_millis")])])]])])]),
         some (Json.arr [Json.obj [("created_at", Json.obj [("order", Json.str "asc")])]]))
    ∧ (dump_query_sort none (some "created_at")
        (Json.str "20181101T000000+07:00") (Json.str "20181107T235959+07:00")).1
      ≠ some (Json.obj [("bool", Json.obj [
          ("must", Json.arr [matchAll]),
          ("filter", Json.arr [Json.obj [("range", Json.obj [
            ("created_at", Json.obj [
              ("gte", Json.str "20181101T000000+07:00"),
              ("lt", Json.str "20181107T235959+07:00"),
              ("format", Json.str "basic_date_time_no_millis")])])]])])]) := by
  have h : dump_query_sort none (some "created_at")
        (Json.str "20181101T000000+07:00") (Json.str "20181107T235959+07:00")
      = (some (Json.obj [("bool", Json.obj [
          ("must", Json.arr [matchAll]),
          ("filter", Json.arr [Json.obj [("range", Json.obj [
            ("request_time", Json.obj [
              ("gte", Json.str "20181101T000000+07:00"),
              ("lt", Json.str "20181107T235959+07:00"),
              ("format", Json.str "basic_date_time_no_millis")])])]])])]),
         some (Json.arr [Json.obj [("created_at", Json.obj [("order", Json.str "asc")])]])) := by
    rfl
  refine ⟨h, ?_⟩
  rw [h]
  simp [matchAll]

/-- **C7, counterexample.** Renaming field `a` to an *existing* field name
`b` overwrites `b` with `a`'s type and drops `a`; renaming `b` back to `a`
then leaves a single field `a`: the field set shrank from `a, b` to `a`,
so the double rename is not a no-op on the field set. -/
theorem c7_counterexample :
    mapping_rename
        [("doc", Json.obj [("properties",
          Json.obj [("a", Json.str "t1"), ("b", Json.str "t2")])])] "a" "b"
      = Except.ok [("doc", Json.obj [("properties", Json.obj [("b", Json.str "t1")])])]
    ∧ mapping_rename
        [("doc", Json.obj [("properties", Json.obj [("b", Json.str "t1")])])] "b" "a"
      = Except.ok [("doc", Json.obj [("properties", Json.obj [("a", Json.str "t1")])])]
    ∧ "b" ∈ (mapping_fields
        [("doc", Json.obj [("properties",
          Json.obj [("a", Json.str "t1"), ("b", Json.str "t2")])])]).getD []
    ∧ "b" ∉ (mapping_fields
        [("doc", Json.obj [("properties", Json.obj [("a", Json.str "t1")])])]).getD [] := by
  refine ⟨rfl, rfl, by decide, by decide⟩

/-- The composite experiment of claim C7: rename `a` to `b`, then rename `b`
back to `a` (propagating a raised error). -/
def rename_roundtrip (m : JObj) (a b : String) : Except String JObj :=
  match IndexTools.mapping_rename m a b with
  | Except.ok m1 => IndexTools.mapping_rename m1 b a
  | Except.error e => Except.error e

/-- The property-name list after the round-trip rename (`none` when a step
raised or the result has an unexpected shape). -/
def roundtrip_fields (m : JObj) (a b : String) : Option (List String) :=
  match rename_roundtrip m a b with
  | Except.ok m' => IndexTools.mapping_fields m'
  | Except.error _ => none

/-- **C7, amended.** For a mapping with exactly one doctype key and a
`properties` dict with distinct field names, renaming `a` to `b` and then
`b` back to `a` leaves the field-name set unchanged (as a permutation of the
original keys), *provided* `a ≠ b` and `b` is not already a field name —
the counterexample forces both provisos. -/
theorem c7_mapping_rename_roundtrip (key a b : String) (fields props : JObj)
    (hf : lookupKey fields "properties" = some (Json.obj props))
    (hnd : (keys props).Nodup)
    (hab : a ≠ b) (hb : b ∉ keys props) :
    (roundtrip_fields [(key, Json.obj fields)] a b).isSome = true
    ∧ ((roundtrip_fields [(key, Json.obj fields)] a b).getD []).Perm (keys props) := by
  by_cases ha : a ∈ keys props
  · have hv : ∃ v, lookupKey props a = some v := by
      have := (lookupKey_isSome_iff_mem props a).mpr ha
      cases hlp : lookupKey props a with
      | none => rw [hlp] at this; simp at this
      | some v => exact ⟨v, rfl⟩
    obtain ⟨v, hv⟩ := hv
    have hkeys1 : keys (popKey (setKey props b v) a) = (keys props).erase a ++ [b] := by
      rw [keys_popKey, keys_setKey_of_not_mem _ _ _ hb, List.erase_append_left _ ha]
    have hlp1 : lookupKey (popKey (setKey props b v) a) b = some v := by
      rw [lookupKey_popKey_ne _ _ _ hab, lookupKey_setKey_self]
    have hna : a ∉ keys (popKey (setKey props b v) a) := by
      rw [hkeys1]
      intro hmem
      rcases List.mem_append.mp hmem with h1 | h1
      · exact absurd rfl (hnd.mem_erase_iff.mp h1).1
      · simp only [List.mem_singleton] at h1
        exact hab h1
    have hbe : b ∉ (keys props).erase a := fun hmem => hb (List.mem_of_mem_erase hmem)
    have hkeys2 :
        keys (popKey (setKey (popKey (setKey props b v) a) a v) b)
          = (keys props).erase a ++ [a] := by
      rw [keys_popKey, keys_setKey_of_not_mem _ _ _ hna, hkeys1, List.append_assoc,
        List.erase_append_right _ hbe]
      simp
    have hres : roundtrip_fields [(key, Json.obj fields)] a b
        = some (keys (popKey (setKey (popKey (setKey props b v) a) a v) b)) := by
      simp only [roundtrip_fields, rename_roundtrip, mapping_rename, hf, hv,
        lookupKey_setKey_self, hlp1, mapping_fields]
    rw [hres]
    refine ⟨rfl, ?_⟩
    simp only [Option.getD_some]
    rw [hkeys2]
    have h1 : ((keys props).erase a ++ [a]).Perm ([a] ++ (keys props).erase a) :=
      List.perm_append_comm
    have h2 : (a :: (keys props).erase a).Perm (keys props) :=
      (List.perm_cons_erase ha).symm
    exact h1.trans h2
  · have hla : lookupKey props a = none := (lookupKey_eq_none_iff_not_mem _ _).mpr ha
    have hlb : lookupKey props b = none := (lookupKey_eq_none_iff_not_mem _ _).mpr hb
    have hres : roundtrip_fields [(key, Json.obj fields)] a b = some (keys props) := by
      simp only [roundtrip_fields, rename_roundtrip, mapping_rename, hf, hla, hlb,
        mapping_fields]
    rw [hres]
    exact ⟨rfl, List.Perm.refl _⟩

/-- Witness for C7's amended theorem: round-tripping the single field `a`
through the fresh name `c` on a concrete one-field mapping. -/
theorem c7_mapping_rename_roundtrip_witness :
    (roundtrip_fields [("doc", Json.obj [("properties", Json.obj [("a", Json.str "t1")])])]
        "a" "c").isSome = true
    ∧ ((roundtrip_fields [("doc", Json.obj [("properties", Json.obj [("a", Json.str "t1")])])]
        "a" "c").getD []).Perm (keys [("a", Json.str "t1")]) :=
  c7_mapping_rename_roundtrip "doc" "a" "c" [("properties", Json.obj [("a", Json.str "t1")])]
    [("a", Json.str "t1")] rfl (by decide) (by decide) (by decide)

/-- One pagination step of the ceiling division: with `d` documents left and
pages of `P`, one page plus the pages for the remaining `d - P` documents. -/
theorem ceil_div_step (d P : Nat) (hd : 0 < d) (hP : 0 < P) :
    (d + P - 1) / P = (d - P + P - 1) / P + 1 := by
  rcases le_or_lt P d with h | h
  · have h1 : d - P + P - 1 + P = d + P - 1 := by omega
    rw [← h1, Nat.add_div_right _ hP]
  · have h2 : d - P + P - 1 = P - 1 := by omega
    have h3 : (P - 1) / P = 0 := Nat.div_eq_of_lt (by omega)
    have h4 : (d + P - 1) / P = 1 := by
      refine Nat.div_eq_of_lt_le (by omega) (by omega)
    rw [h2, h3, h4]

/-- The dump pagination loop, solved: from offset `from_` it returns the
remaining documents and issues one paged request per started page of the
remaining count. -/
theorem dump_loop_spec (docs : List Json) (P : Nat) (hP : 0 < P) :
    ∀ n from_, docs.length - from_ ≤ n →
      dump_loop docs docs.length P from_
        = (docs.drop from_, (docs.length - from_ + P - 1) / P) := by
  intro n
  induction n with
  | zero =>
    intro from_ hle
    have h : ¬ from_ < docs.length := by omega
    rw [dump_loop, if_neg h]
    have h2 : docs.drop from_ = [] := List.drop_eq_nil_of_le (by omega)
    have h3 : docs.length - from_ = 0 := by omega
    rw [h2, h3]
    have h4 : (0 + P - 1) / P = 0 := Nat.div_eq_of_lt (by omega)
    rw [h4]
  | succ n ih =>
    intro from_ hle
    by_cases h : from_ < docs.length
    · rw [dump_loop, if_pos h, if_pos hP]
      have ihh := ih (from_ + P) (by omega)
      simp only [ihh, esSearchHits]
      have hfst : (docs.drop from_).take P ++ docs.drop (from_ + P) = docs.drop from_ := by
        rw [← List.drop_drop P from_ docs]
        exact List.take_append_drop P (docs.drop from_)
      have hsnd : (docs.length - (from_ + P) + P - 1) / P + 1
          = (docs.length - from_ + P - 1) / P := by
        have hd : 0 < docs.length - from_ := by omega
        have he : docs.length - (from_ + P) = docs.length - from_ - P := by omega
        rw [he, (ceil_div_step (docs.length - from_) P hd hP)]
      rw [hfst, hsnd]
    · rw [dump_loop, if_neg h]
      have h2 : docs.drop from_ = [] := List.drop_eq_nil_of_le (by omega)
      have h3 : docs.length - from_ = 0 := by omega
      rw [h2, h3]
      have h4 : (0 + P - 1) / P = 0 := Nat.div_eq_of_lt (by omega)
      rw [h4]

/-- **C6.** Over an index whose matching documents are `docs` (`N` of them,
as the first query's reported total) and any `page_size = P ≥ 1`, `dump`
issues exactly `⌈N / P⌉` paged search requests, advancing the offset by `P`
each time until it reaches the total; in-memory mode returns exactly the `N`
documents, file mode returns the total `N`. -/
theorem c6_dump_pagination (docs : List Json) (P : Nat) (hP : 0 < P) :
    dump docs P false = (Sum.inr docs, (docs.length + P - 1) / P)
    ∧ dump docs P true = (Sum.inl docs.length, (docs.length + P - 1) / P)
    ∧ (docs.length + P - 1) / P = docs.length ⌈/⌉ P := by
  have h := dump_loop_spec docs P hP docs.length 0 (by omega)
  simp only [List.drop_zero, Nat.sub_zero] at h
  refine ⟨?_, ?_, (Nat.ceilDiv_eq_add_pred_div _ _).symm⟩ <;>
    simp [dump, h]

/-- Witness for C6: three documents with pages of two need two paged
requests; in-memory mode returns all three documents, file mode the total. -/
theorem c6_dump_pagination_witness :
    dump [Json.int 1, Json.int 2, Json.int 3] 2 false
      = (Sum.inr [Json.int 1, Json.int 2, Json.int 3], 2)
    ∧ dump [Json.int 1, Json.int 2, Json.int 3] 2 true = (Sum.inl 3, 2) := by
  have h := c6_dump_pagination [Json.int 1, Json.int 2, Json.int 3] 2 (by decide)
  exact ⟨h.1, h.2.1⟩

/-- Key membership after a dict assignment. -/
theorem mem_keys_setKey (o : JObj) (key : String) (v : Json) (x : String) :
    x ∈ keys (setKey o key v) ↔ x ∈ keys o ∨ x = key := by
  rw [keys_setKey]
  by_cases h : key ∈ keys o
  · rw [if_pos h]
    constructor
    · exact Or.inl
    · rintro (h1 | rfl)
      · exact h1
      · exact h
  · rw [if_neg h]
    simp

/-- Key membership after a guarded clause assignment. -/
theorem mem_keys_addClause (o : JObj) (c : Bool) (key : String) (v : Json) (x : String) :
    x ∈ keys (addClause o c key v) ↔ x ∈ keys o ∨ (x = key ∧ c = true) := by
  cases c <;> simp [addClause, mem_keys_setKey]

/-- Lookup of a different key is unchanged by a guarded clause assignment. -/
theorem lookup_addClause_ne (o : JObj) (c : Bool) (key : String) (v : Json) (x : String)
    (h : x ≠ key) : lookupKey (addClause o c key v) x = lookupKey o x := by
  cases c <;> simp [addClause, lookupKey_setKey_ne _ _ _ _ (Ne.symm h)]

/-- Whether `make_search_body` puts a `_source` clause in the body: a truthy
`_source` argument, or truthy `source_includes` or `source_excludes`. -/
def source_present (a : SearchArgs) : Bool :=
  (match a._source with
   | some s => !s.isEmpty
   | none => false)
  || inc_exc_present a

/-- Lookup of a key other than `_source` is unchanged by the `_source`
assignments. -/
theorem lookup_add_source_clauses_ne (a : SearchArgs) (o : JObj) (x : String)
    (h : x ≠ "_source") :
    lookupKey (add_source_clauses a o) x = lookupKey o x := by
  have hsk : ∀ (b : JObj) (w : Json),
      lookupKey (setKey b "_source" w) x = lookupKey b x :=
    fun b w => lookupKey_setKey_ne b "_source" x w (Ne.symm h)
  unfold add_source_clauses
  rcases hs : a._source with _ | s
  · by_cases hc : inc_exc_present a = true <;> simp [hs, hc, hsk]
  · by_cases he : s.isEmpty <;> by_cases hc : inc_exc_present a = true <;>
      simp [hs, he, hc, hsk]

/-- Key membership after the `_source` assignments. -/
theorem mem_keys_add_source_clauses (a : SearchArgs) (o : JObj) (x : String) :
    x ∈ keys (add_source_clauses a o)
      ↔ x ∈ keys o ∨ (x = "_source" ∧ source_present a = true) := by
  unfold add_source_clauses source_present
  rcases hs : a._source with _ | s
  · by_cases hc : inc_exc_present a = true <;>
      simp [hs, hc, mem_keys_setKey]
  · by_cases he : s.isEmpty <;> by_cases hc : inc_exc_present a = true <;>
      simp [hs, he, hc, mem_keys_setKey]

/-- Lookup of a key that is none of the optional clause names is unchanged
by all the optional clause assignments. -/
theorem lookup_add_optional_clauses_ne (a : SearchArgs) (o : JObj) (x : String)
    (h : x ∉ ["_source", "highlight", "aggs", "from", "size", "sort", "script_fields",
      "post_filter", "rescore", "min_score", "collapse"]) :
    lookupKey (add_optional_clauses a o) x = lookupKey o x := by
  simp only [List.mem_cons, List.not_mem_nil, or_false, not_or] at h
  obtain ⟨h1, h2, h3, h4, h5, h6, h7, h8, h9, h10, h11⟩ := h
  unfold add_optional_clauses
  rw [lookup_addClause_ne _ _ _ _ _ h11, lookup_addClause_ne _ _ _ _ _ h10,
    lookup_addClause_ne _ _ _ _ _ h9, lookup_addClause_ne _ _ _ _ _ h8,
    lookup_addClause_ne _ _ _ _ _ h7, lookup_addClause_ne _ _ _ _ _ h6,
    lookup_addClause_ne _ _ _ _ _ h5, lookup_addClause_ne _ _ _ _ _ h4,
    lookup_addClause_ne _ _ _ _ _ h3, lookup_addClause_ne _ _ _ _ _ h2,
    lookup_add_source_clauses_ne a o x h1]

/-- Key membership after all the optional clause assignments: the original
keys plus exactly the clauses whose arguments are truthy. -/
theorem mem_keys_add_optional_clauses (a : SearchArgs) (o : JObj) (x : String) :
    x ∈ keys (add_optional_clauses a o) ↔
      x ∈ keys o
      ∨ (x = "_source" ∧ source_present a = true)
      ∨ (x = "highlight" ∧ opTruthy a.highlight = true)
      ∨ (x = "aggs" ∧ opTruthy a.aggs = true)
      ∨ (x = "from" ∧ opTruthy a.from_ = true)
      ∨ (x = "size" ∧ opTruthy a.size = true)
      ∨ (x = "sort" ∧ opTruthy a.sort = true)
      ∨ (x = "script_fields" ∧ opTruthy a.script_fields = true)
      ∨ (x = "post_filter" ∧ opTruthy a.post_filter = true)
      ∨ (x = "rescore" ∧ opTruthy a.rescore = true)
      ∨ (x = "min_score" ∧ opTruthy a.min_score = true)
      ∨ (x = "collapse" ∧ opTruthy a.collapse = true) := by
  unfold add_optional_clauses
  simp only [mem_keys_addClause, mem_keys_add_source_clauses, or_assoc]

/-- The `query` entry of the built search body is always the `query`
argument, defaulted to match-all when that argument is `None`. -/
theorem lookupKey_make_search_body_dict_query (a : SearchArgs) :
    lookupKey (make_search_body_dict a) "query" = some (a.query.getD matchAll) := by
  have h : ("query" : String) ∉ ["_source", "highlight", "aggs", "from", "size", "sort",
      "script_fields", "post_filter", "rescore", "min_score", "collapse"] := by decide
  show lookupKey (add_optional_clauses a
      (setKey (init_body a.body) "query" (a.query.getD matchAll))) "query"
    = some (a.query.getD matchAll)
  rw [lookup_add_optional_clauses_ne a _ "query" h, lookupKey_setKey_self]

/-- **C5.** `make_search_body` with no arguments returns exactly the dict
with the single entry `query ↦ match-all`; in general (absent template
params, which only rerender the finished dict) the returned body is the
built dict, its `query` entry is the `query` argument defaulted to match-all
exactly when that argument is absent, and a key is in the body exactly when
it was in the passed-in body dict, is `query`, or is one of the optional
clauses whose argument was provided and truthy. -/
theorem c5_make_search_body (a : SearchArgs) (hp : a.params = none) :
    make_search_body {} = some (Json.obj [("query", matchAll)])
    ∧ make_search_body a = some (Json.obj (make_search_body_dict a))
    ∧ lookupKey (make_search_body_dict a) "query" = some (a.query.getD matchAll)
    ∧ ∀ x, x ∈ keys (make_search_body_dict a) ↔
        x ∈ keys (init_body a.body)
        ∨ x = "query"
        ∨ (x = "_source" ∧ source_present a = true)
        ∨ (x = "highlight" ∧ opTruthy a.highlight = true)
        ∨ (x = "aggs" ∧ opTruthy a.aggs = true)
        ∨ (x = "from" ∧ opTruthy a.from_ = true)
        ∨ (x = "size" ∧ opTruthy a.size = true)
        ∨ (x = "sort" ∧ opTruthy a.sort = true)
        ∨ (x = "script_fields" ∧ opTruthy a.script_fields = true)
        ∨ (x = "post_filter" ∧ opTruthy a.post_filter = true)
        ∨ (x = "rescore" ∧ opTruthy a.rescore = true)
        ∨ (x = "min_score" ∧ opTruthy a.min_score = true)
        ∨ (x = "collapse" ∧ opTruthy a.collapse = true) := by
  refine ⟨rfl, ?_, lookupKey_make_search_body_dict_query a, ?_⟩
  · simp [make_search_body, hp]
  · intro x
    have h := mem_keys_add_optional_clauses a
      (setKey (init_body a.body) "query" (a.query.getD matchAll)) x
    have hq := mem_keys_setKey (init_body a.body) "query" (a.query.getD matchAll) x
    show x ∈ keys (add_optional_clauses a
        (setKey (init_body a.body) "query" (a.query.getD matchAll))) ↔ _
    rw [h, hq, or_assoc]

/-- Witness for C5: the empty call yields exactly the match-all body; with
only `source_includes` and `source_excludes` provided, the body holds
exactly `query` and `_source`. -/
theorem c5_make_search_body_witness :
    make_search_body {} = some (Json.obj [("query", matchAll)])
    ∧ "_source" ∈ keys (make_search_body_dict
        { source_includes := some (Json.arr [Json.str "a"]),
          source_excludes := some (Json.arr [Json.str "b"]) })
    ∧ "highlight" ∉ keys (make_search_body_dict
        { source_includes := some (Json.arr [Json.str "a"]),
          source_excludes := some (Json.arr [Json.str "b"]) })
    ∧ lookupKey (make_search_body_dict
        { source_includes := some (Json.arr [Json.str "a"]),
          source_excludes := some (Json.arr [Json.str "b"]) }) "query" = some matchAll := by
  have h := c5_make_search_body
    { source_includes := some (Json.arr [Json.str "a"]),
      source_excludes := some (Json.arr [Json.str "b"]) } rfl
  refine ⟨h.1, ?_, ?_, h.2.2.1⟩
  · exact (h.2.2.2 "_source").mpr (by decide)
  · intro hmem
    have := (h.2.2.2 "highlight").mp hmem
    revert this
    decide

/-- **C9.** When the dict passed as `body` already holds a `query` clause
and the `query` argument is not supplied, the built body's `query` is
replaced by match-all (the caller's pre-built clause is discarded), and the
caller's dict itself is mutated in place: its post-call state is the fully
built body. -/
theorem c9_make_search_body_overwrites_query (a : SearchArgs) (b : JObj) (q0 : Json)
    (hb : a.body = some b) (hq0 : lookupKey b "query" = some q0)
    (hqa : a.query = none) (hp : a.params = none) :
    make_search_body_caller_dict a = some (make_search_body_dict a)
    ∧ lookupKey (make_search_body_dict a) "query" = some matchAll
    ∧ make_search_body a = some (Json.obj (make_search_body_dict a)) := by
  have hbne : b.isEmpty = false := by
    cases b with
    | nil => simp [lookupKey] at hq0
    | cons hd tl => rfl
  refine ⟨?_, ?_, ?_⟩
  · unfold make_search_body_caller_dict
    rw [hb]
    simp [hbne]
  · rw [lookupKey_make_search_body_dict_query a, hqa]
    rfl
  · simp [make_search_body, hp]

/-- Witness for C9: a caller dict holding a pre-built `term` query is
rewritten to the match-all body. -/
theorem c9_make_search_body_overwrites_query_witness :
    make_search_body_caller_dict { body := some [("query", Json.str "old")] }
      = some (make_search_body_dict { body := some [("query", Json.str "old")] })
    ∧ lookupKey (make_search_body_dict { body := some [("query", Json.str "old")] }) "query"
      = some matchAll
    ∧ make_search_body { body := some [("query", Json.str "old")] }
      = some (Json.obj (make_search_body_dict { body := some [("query", Json.str "old")] })) :=
  c9_make_search_body_overwrites_query { body := some [("query", Json.str "old")] }
    [("query", Json.str "old")] (Json.str "old") rfl rfl rfl rfl

end Elastictools
